import Mathlib

/-!
Shallow embedding of the bluff-poker dice environment (blufpoker_env.py)
and proofs about its transition semantics.

The Python environment is a single mutable class; here its state is an
explicit record, the private numpy generator is a stream of raw natural
draws together with a cursor, and each handler is a pure function from
state and action to the updated state plus (reward, terminated).
-/

namespace BlufPoker

/-- Number of dice, from the module constant NUM_DICE. -/
def NUM_DICE : ℕ := 3

/-- Largest face of a die, from MAX_DIE_VALUE. -/
def MAX_DIE_VALUE : ℕ := 6

/-- Largest non-triple declaration, from MAX_NORMAL_DECLARE. -/
def MAX_NORMAL_DECLARE : ℕ := 666

/-- Sentinel rank for a triple, from POKER_VALUE = MAX_NORMAL_DECLARE + 1. -/
def POKER_VALUE : ℕ := MAX_NORMAL_DECLARE + 1

/-- Reward for passing the turn, from REWARD_SURVIVE = 0.05. -/
def REWARD_SURVIVE : ℚ := 5 / 100

/-- Reward for catching a bluff, from REWARD_CATCH_BLUFF = 0.05. -/
def REWARD_CATCH_BLUFF : ℚ := 5 / 100

/-- Penalty for losing the round, from PENALTY_LOSE_ROUND = -1.0. -/
def PENALTY_LOSE_ROUND : ℚ := -1

/-- Penalty for an invalid action, from PENALTY_INVALID = -0.5. -/
def PENALTY_INVALID : ℚ := -(1 / 2)

/-- Game phase, from the Phase IntEnum. -/
inductive Phase where
  | DECLARE
  | BELIEVE
  | THROW
  | POKER
deriving DecidableEq

/-- ActionType.BELIEVE. -/
def ACTION_BELIEVE : ℕ := 0

/-- ActionType.DOUBT. -/
def ACTION_DOUBT : ℕ := 1

/-- ActionType.THROW_START: first throw action id. -/
def THROW_START : ℕ := 2

/-- ActionType.DECLARE_START: first declare action id. -/
def DECLARE_START : ℕ := 66

/-- State of a DiceBluffEnv instance.  The numpy generator np_random is
modelled by the raw draw stream rng together with the cursor rngIdx, so that
the i-th draw ever made is rng i; dice and cup_mask are the int8 arrays of
the source (cup_mask entries are 0 or 1). -/
structure EnvState where
  num_players : ℕ
  current_player : ℕ
  loser : ℕ
  phase : Phase
  dice : Fin 3 → ℕ
  cup_mask : Fin 3 → ℕ
  declared_value : ℤ
  prev_declared_value : ℤ
  poker_attempts : ℕ
  rng : ℕ → ℕ
  rngIdx : ℕ

/-- One uniform draw in [1, 6] from a raw stream value, modelling
np_random.integers(1, MAX_DIE_VALUE + 1). -/
def dieFromDraw (r : ℕ) : ℕ := r % 6 + 1

/-- Embedding of _roll_dice: for each position whose mask entry is true a
fresh draw is consumed, in left-to-right order; other positions keep the
current die.  Returns the new dice array and the advanced stream cursor. -/
def rollDice (s : EnvState) (mask : Fin 3 → Bool) : (Fin 3 → ℕ) × ℕ :=
  let c0 : ℕ := if mask 0 then 1 else 0
  let v0 : ℕ := if mask 0 then dieFromDraw (s.rng s.rngIdx) else s.dice 0
  let c1 : ℕ := c0 + (if mask 1 then 1 else 0)
  let v1 : ℕ := if mask 1 then dieFromDraw (s.rng (s.rngIdx + c0)) else s.dice 1
  let c2 : ℕ := c1 + (if mask 2 then 1 else 0)
  let v2 : ℕ := if mask 2 then dieFromDraw (s.rng (s.rngIdx + c1)) else s.dice 2
  (fun i => if i = 0 then v0 else if i = 1 then v1 else v2, s.rngIdx + c2)

/-- Embedding of _calculate_value: the sentinel POKER_VALUE for a triple,
otherwise the three faces sorted descending and read as a three-digit
number. -/
def calculateValue (d : Fin 3 → ℕ) : ℕ :=
  if d 0 = d 1 ∧ d 1 = d 2 then POKER_VALUE
  else
    match List.insertionSort (fun a b => b ≤ a) [d 0, d 1, d 2] with
    | [a, b, c] => a * 100 + b * 10 + c
    | _ => 0

/-- Digit extraction loop shared by _handle_throw (lines 191-195) and
_handle_poker (lines 264-268): starting from rel_action, the loop appends
temp_action % 4 and then divides temp_action by 4, three times, so the
entry at index i is the i-th extracted digit, rel / 4 ^ i % 4.  The source
applies no reversal to this list. -/
def decodeDieActions (rel : ℕ) : Fin 3 → ℕ := fun i => rel / 4 ^ (i : ℕ) % 4

/-- Modelled from the spec: the decoder the specification describes, which
reverses the extracted digits so that index 0 (die 1) receives the final,
most-significant digit extracted. -/
def decodeDieActionsSpec (rel : ℕ) : Fin 3 → ℕ := fun i => rel / 4 ^ (2 - (i : ℕ)) % 4

/-- Per-die actions of _handle_throw after the cup correction: when some die
is Roll+Hide (digit 2) every Keep+Hide die (digit 0) is forced to Keep+Show
(digit 1). -/
def throwDieActions (rel : ℕ) : Fin 3 → ℕ :=
  let raw := decodeDieActions rel
  if ∃ i : Fin 3, raw i = 2 then fun i => if raw i = 0 then 1 else raw i
  else raw

/-- should_roll flag of _handle_throw: the corrected die action is 2 or 3. -/
def throwRerollMask (rel : ℕ) (i : Fin 3) : Bool := decide (2 ≤ throwDieActions rel i)

/-- New cup_mask entry of _handle_throw: 1 when the corrected die action is
even (Keep+Hide or Roll+Hide), else 0. -/
def throwHideMask (rel : ℕ) (i : Fin 3) : ℕ :=
  if throwDieActions rel i % 2 = 0 then 1 else 0

/-- Embedding of _handle_throw: set each cup flag from the corrected
actions, reroll the flagged dice, move to DECLARE.  The caller supplies
reward 0 and terminated false. -/
def handle_throw (s : EnvState) (action : ℕ) : EnvState :=
  let rel := action - THROW_START
  let s1 := { s with cup_mask := fun i => throwHideMask rel i }
  let rolled := rollDice s1 (fun i => throwRerollMask rel i)
  { s1 with dice := rolled.1, rngIdx := rolled.2, phase := Phase.DECLARE }

/-- Embedding of _handle_declare: returns the updated state and the
validity flag the source returns.  The declared value is action -
DECLARE_START as a Python integer, hence the subtraction over ℤ. -/
def handle_declare (s : EnvState) (action : ℕ) : EnvState × Bool :=
  let val : ℤ := (action : ℤ) - (DECLARE_START : ℤ)
  if val ≤ s.prev_declared_value then (s, false)
  else if (MAX_NORMAL_DECLARE : ℤ) < val ∧ val ≠ (POKER_VALUE : ℤ) then (s, false)
  else
    ({ s with
        declared_value := val
        prev_declared_value := val
        current_player := (s.current_player + 1) % s.num_players
        phase := Phase.BELIEVE }, true)

/-- Python's (current_player - 1) % num_players, which is non-negative for a
positive modulus; Int.emod has the same convention. -/
def prevPlayer (n : ℕ) (cp : ℕ) : ℕ := (((cp : ℤ) - 1) % (n : ℤ)).toNat

/-- Embedding of _handle_believe: returns the updated state together with
(reward, terminated). -/
def handle_believe (s : EnvState) (action : ℕ) : EnvState × ℚ × Bool :=
  if action = ACTION_DOUBT then
    let s1 := { s with cup_mask := fun _ => 0 }
    if (calculateValue s1.dice : ℤ) < s1.declared_value then
      ({ s1 with loser := prevPlayer s1.num_players s1.current_player }, REWARD_CATCH_BLUFF, true)
    else
      ({ s1 with loser := s1.current_player }, PENALTY_LOSE_ROUND, true)
  else if action = ACTION_BELIEVE then
    if s.declared_value = (POKER_VALUE : ℤ) then
      ({ s with phase := Phase.POKER, poker_attempts := 0 }, 0, false)
    else
      ({ s with phase := Phase.THROW }, REWARD_SURVIVE, false)
  else
    (s, 0, false)

/-- Reroll mask computed by _handle_poker from the pre-step state: a full
reroll on the first attempt, otherwise one flag per die from the digit
extraction loop (digit 2 or 3 requests a roll). -/
def pokerRerollMask (s : EnvState) (action : ℕ) : Fin 3 → Bool :=
  if s.poker_attempts + 1 = 1 then fun _ => true
  else fun i => decide (2 ≤ decodeDieActions (action - THROW_START) i)

/-- Embedding of _handle_poker: increment the attempt counter; past the
first attempt an action outside the throw range is rejected (the counter
stays incremented, as in the source); otherwise reroll the masked dice,
hide every rerolled die, and settle the attempt. -/
def handle_poker (s : EnvState) (action : ℕ) : EnvState × ℚ × Bool :=
  let s0 := { s with poker_attempts := s.poker_attempts + 1 }
  if s0.poker_attempts ≠ 1 ∧ ¬(THROW_START ≤ action ∧ action < DECLARE_START) then
    (s0, PENALTY_INVALID, false)
  else
    let mask := pokerRerollMask s action
    let rolled := rollDice s0 mask
    let s1 := { s0 with
        dice := rolled.1
        rngIdx := rolled.2
        cup_mask := fun i => if mask i then 1 else s0.cup_mask i }
    if calculateValue s1.dice = POKER_VALUE then
      ({ s1 with loser := s1.current_player }, REWARD_SURVIVE, true)
    else if 3 ≤ s1.poker_attempts then
      ({ s1 with loser := s1.current_player }, PENALTY_LOSE_ROUND, true)
    else
      (s1, 0, false)

/-- Embedding of _is_action_valid_for_phase. -/
def is_action_valid_for_phase (s : EnvState) (action : ℕ) : Bool :=
  match s.phase with
  | Phase.BELIEVE => decide (action = ACTION_BELIEVE ∨ action = ACTION_DOUBT)
  | Phase.THROW => decide (THROW_START ≤ action ∧ action < DECLARE_START)
  | Phase.DECLARE =>
      decide (DECLARE_START ≤ action ∧
        (action ≤ MAX_NORMAL_DECLARE + DECLARE_START ∨
          action = POKER_VALUE + DECLARE_START))
  | Phase.POKER => decide (THROW_START ≤ action ∧ action < DECLARE_START)

/-- Embedding of step: the next state together with (reward, terminated).
The observation the source returns alongside is get_obs of the next state,
and its truncated flag is always false. -/
def step (s : EnvState) (action : ℕ) : EnvState × ℚ × Bool :=
  if is_action_valid_for_phase s action = false then
    (s, PENALTY_INVALID, false)
  else
    match s.phase with
    | Phase.BELIEVE => handle_believe s action
    | Phase.THROW => (handle_throw s action, 0, false)
    | Phase.DECLARE =>
        let hd := handle_declare s action
        if hd.2 = false then (hd.1, PENALTY_INVALID, false)
        else (hd.1, 0, false)
    | Phase.POKER => handle_poker s action

/-- Observation record of _get_obs. -/
structure Obs where
  dice : Fin 3 → ℕ
  cup_mask : Fin 3 → ℕ
  declared_value : ℤ
  prev_declared_value : ℤ
  phase : Phase
  player_index : ℕ
  poker_attempt : ℕ

/-- Embedding of _get_obs: in BELIEVE phase each die hidden under the cup is
masked to 0; in every other phase the dice are copied as they are.  The
cup_mask itself is always copied unmasked. -/
def get_obs (s : EnvState) : Obs :=
  let obs_dice : Fin 3 → ℕ :=
    if s.phase = Phase.BELIEVE then fun i => if s.cup_mask i = 1 then 0 else s.dice i
    else s.dice
  { dice := obs_dice
    cup_mask := s.cup_mask
    declared_value := s.declared_value
    prev_declared_value := s.prev_declared_value
    phase := s.phase
    player_index := s.current_player
    poker_attempt := s.poker_attempts }

/-- Embedding of reset without reseeding: the loser starts, all dice are
rerolled, everything is hidden, declarations and the attempt counter are
zeroed, phase is DECLARE. -/
def reset (s : EnvState) : EnvState :=
  let s0 := { s with current_player := s.loser }
  let rolled := rollDice s0 (fun _ => true)
  { s0 with
      dice := rolled.1
      rngIdx := rolled.2
      cup_mask := fun _ => 1
      declared_value := 0
      prev_declared_value := 0
      phase := Phase.DECLARE
      poker_attempts := 0 }

/-- Reseeding part of reset(seed): a fresh generator stream replaces the
old one. -/
def reseed (s : EnvState) (g : ℕ → ℕ) : EnvState := { s with rng := g, rngIdx := 0 }

/-- State produced by the constructor: loser 0, then reset. -/
def initState (np : ℕ) (g : ℕ → ℕ) : EnvState :=
  reset
    { num_players := np
      current_player := 0
      loser := 0
      phase := Phase.DECLARE
      dice := fun _ => 1
      cup_mask := fun _ => 1
      declared_value := 0
      prev_declared_value := 0
      poker_attempts := 0
      rng := g
      rngIdx := 0 }

/-- States reachable through the public interface: construction (with 3 to 8
players, as the constructor asserts), step, and reset with or without a
fresh seed. -/
inductive Reachable : EnvState → Prop where
  | init (np : ℕ) (g : ℕ → ℕ) (h3 : 3 ≤ np) (h8 : np ≤ 8) : Reachable (initState np g)
  | ofStep (s : EnvState) (a : ℕ) (h : Reachable s) : Reachable (step s a).1
  | ofReset (s : EnvState) (h : Reachable s) : Reachable (reset s)
  | ofReseed (s : EnvState) (g : ℕ → ℕ) (h : Reachable s) : Reachable (reset (reseed s g))

/-- Dice triple written positionally, used to state properties of
calculateValue. -/
def mkDice (a b c : ℕ) : Fin 3 → ℕ := fun i => if i = 0 then a else if i = 1 then b else c

/-- Constant-zero raw stream, used for concrete test states. -/
def gZero : ℕ → ℕ := fun _ => 0

/-- Default concrete environment state for witnesses. -/
def baseState : EnvState :=
  { num_players := 4
    current_player := 2
    loser := 0
    phase := Phase.DECLARE
    dice := mkDice 5 2 3
    cup_mask := fun _ => 1
    declared_value := 0
    prev_declared_value := 0
    poker_attempts := 0
    rng := gZero
    rngIdx := 0 }

/-- Concrete BELIEVE-phase state: dice (5, 2, 3) of rank 532, declared
value 600. -/
def believeState : EnvState :=
  { baseState with phase := Phase.BELIEVE, declared_value := 600, prev_declared_value := 600 }

/-- Concrete POKER-phase state after a first full-reroll attempt: every die
is under the cup and one attempt has been spent. -/
def pokerState : EnvState :=
  { baseState with
      phase := Phase.POKER, declared_value := 667, prev_declared_value := 667,
      poker_attempts := 1 }

/-- Concrete POKER-phase state before the first attempt. -/
def pokerStartState : EnvState :=
  { baseState with
      phase := Phase.POKER, declared_value := 667, prev_declared_value := 667,
      poker_attempts := 0 }

/-- Concrete THROW-phase state. -/
def throwState : EnvState := { baseState with phase := Phase.THROW }

lemma handle_declare_reject (s : EnvState) (a : ℕ)
    (hd : (a : ℤ) - (DECLARE_START : ℤ) ≤ s.prev_declared_value ∨
      ((MAX_NORMAL_DECLARE : ℤ) < (a : ℤ) - (DECLARE_START : ℤ) ∧
        (a : ℤ) - (DECLARE_START : ℤ) ≠ (POKER_VALUE : ℤ))) :
    handle_declare s a = (s, false) := by
  unfold handle_declare
  dsimp only
  split_ifs with h1 h2
  · rfl
  · rfl
  · exfalso
    rcases hd with h | h
    · exact h1 h
    · exact h2 h

/-- C7: calculateValue returns the triple sentinel exactly on equal faces,
otherwise the faces sorted descending read as a three-digit number, and it
is invariant under every permutation of its arguments. -/
theorem calculateValue_spec :
    ∀ a ∈ Finset.Icc 1 6, ∀ b ∈ Finset.Icc 1 6, ∀ c ∈ Finset.Icc 1 6,
      (calculateValue (mkDice a b c) = POKER_VALUE ↔ (a = b ∧ b = c)) ∧
      (¬(a = b ∧ b = c) →
        calculateValue (mkDice a b c) =
          100 * max a (max b c) + 10 * (a + b + c - max a (max b c) - min a (min b c)) +
            min a (min b c)) ∧
      calculateValue (mkDice a b c) = calculateValue (mkDice a c b) ∧
      calculateValue (mkDice a b c) = calculateValue (mkDice b a c) ∧
      calculateValue (mkDice a b c) = calculateValue (mkDice b c a) ∧
      calculateValue (mkDice a b c) = calculateValue (mkDice c a b) ∧
      calculateValue (mkDice a b c) = calculateValue (mkDice c b a) := by decide

/-- Witness for C7 at the concrete dice (4, 6, 2). -/
theorem calculateValue_spec_witness :
    (calculateValue (mkDice 4 6 2) = POKER_VALUE ↔ ((4 : ℕ) = 6 ∧ (6 : ℕ) = 2)) ∧
      (¬((4 : ℕ) = 6 ∧ (6 : ℕ) = 2) →
        calculateValue (mkDice 4 6 2) =
          100 * max 4 (max 6 2) + 10 * (4 + 6 + 2 - max 4 (max 6 2) - min 4 (min 6 2)) +
            min 4 (min 6 2)) ∧
      calculateValue (mkDice 4 6 2) = calculateValue (mkDice 4 2 6) ∧
      calculateValue (mkDice 4 6 2) = calculateValue (mkDice 6 4 2) ∧
      calculateValue (mkDice 4 6 2) = calculateValue (mkDice 6 2 4) ∧
      calculateValue (mkDice 4 6 2) = calculateValue (mkDice 2 4 6) ∧
      calculateValue (mkDice 4 6 2) = calculateValue (mkDice 2 6 4) :=
  calculateValue_spec 4 (by decide) 6 (by decide) 2 (by decide)

/-- C1 counterexample: for throw action id 3 (relative value 1) the engine
gives die 1 (index 0) the first extracted, least-significant digit 1,
whereas the reversed decoding described by the claim would give it the
final extracted digit 0. -/
theorem decode_reverse_counterexample :
    decodeDieActions 1 0 = 1 ∧ decodeDieActionsSpec 1 0 = 0 ∧
      decodeDieActions 1 0 ≠ decodeDieActionsSpec 1 0 := by decide

/-- C1 amended: for every throw action id in [2, 65] the engine extracts
three base-4 digits of a - 2 by repeated mod 4 and division without any
reversal, so index 0 (die 1) receives the first, least-significant digit;
the reroll-mask decoding of POKER attempts 2 and 3 reads the same
unreversed digits. -/
theorem decode_no_reverse (a : ℕ) (h2 : THROW_START ≤ a) (h65 : a ≤ 65) :
    (∀ i : Fin 3, decodeDieActions (a - THROW_START) i < 4) ∧
    decodeDieActions (a - THROW_START) 0 + 4 * decodeDieActions (a - THROW_START) 1 +
        16 * decodeDieActions (a - THROW_START) 2 = a - THROW_START ∧
    decodeDieActions (a - THROW_START) 0 = (a - THROW_START) % 4 ∧
    (∀ s : EnvState, s.poker_attempts ≠ 0 → ∀ i : Fin 3,
      pokerRerollMask s a i = decide (2 ≤ decodeDieActions (a - THROW_START) i)) := by
  refine ⟨fun i => Nat.mod_lt _ (by norm_num), ?_, ?_, fun s hs i => ?_⟩
  · show (a - 2) / 4 ^ (0 : ℕ) % 4 + 4 * ((a - 2) / 4 ^ (1 : ℕ) % 4) +
        16 * ((a - 2) / 4 ^ (2 : ℕ) % 4) = a - 2
    have h2n : 2 ≤ a := h2
    norm_num
    omega
  · show (a - 2) / 4 ^ (0 : ℕ) % 4 = (a - 2) % 4
    norm_num
  · unfold pokerRerollMask
    rw [if_neg (by omega)]

/-- Witness for C1 amended at the concrete throw action id 7 (relative
value 5, digits 1, 1, 0). -/
theorem decode_no_reverse_witness :
    (∀ i : Fin 3, decodeDieActions (7 - THROW_START) i < 4) ∧
    decodeDieActions (7 - THROW_START) 0 + 4 * decodeDieActions (7 - THROW_START) 1 +
        16 * decodeDieActions (7 - THROW_START) 2 = 7 - THROW_START ∧
    decodeDieActions (7 - THROW_START) 0 = (7 - THROW_START) % 4 ∧
    (∀ s : EnvState, s.poker_attempts ≠ 0 → ∀ i : Fin 3,
      pokerRerollMask s 7 i = decide (2 ≤ decodeDieActions (7 - THROW_START) i)) :=
  decode_no_reverse 7 (by decide) (by decide)

lemma step_reject_eq (s : EnvState) (a : ℕ)
    (h : is_action_valid_for_phase s a = false ∨
      (s.phase = Phase.DECLARE ∧
        ((a : ℤ) - (DECLARE_START : ℤ) ≤ s.prev_declared_value ∨
          ((MAX_NORMAL_DECLARE : ℤ) < (a : ℤ) - (DECLARE_START : ℤ) ∧
            (a : ℤ) - (DECLARE_START : ℤ) ≠ (POKER_VALUE : ℤ))))) :
    step s a = (s, PENALTY_INVALID, false) := by
  unfold step
  rcases h with h | ⟨hph, hd⟩
  · rw [if_pos h]
  · split_ifs with hv
    · rfl
    · rw [hph]
      dsimp only
      rw [handle_declare_reject s a hd]
      rfl

/-- C2: a rejected action, whether it is invalid for the current phase or a
phase-valid declaration that is not strictly increasing or out of range,
yields exactly the invalid penalty, no termination, and the unchanged
state. -/
theorem invalid_action_no_mutation (s : EnvState) (a : ℕ)
    (h : is_action_valid_for_phase s a = false ∨
      (s.phase = Phase.DECLARE ∧
        ((a : ℤ) - (DECLARE_START : ℤ) ≤ s.prev_declared_value ∨
          ((MAX_NORMAL_DECLARE : ℤ) < (a : ℤ) - (DECLARE_START : ℤ) ∧
            (a : ℤ) - (DECLARE_START : ℤ) ≠ (POKER_VALUE : ℤ))))) :
    step s a = (s, PENALTY_INVALID, false) :=
  step_reject_eq s a h

/-- Witness for C2: declaring 0 (action id 66) in the initial DECLARE phase
is rejected and mutates nothing. -/
theorem invalid_action_no_mutation_witness :
    step baseState 66 = (baseState, PENALTY_INVALID, false) :=
  invalid_action_no_mutation baseState 66 (Or.inr ⟨rfl, Or.inl (by decide)⟩)

lemma step_of_valid_believe (s : EnvState) (a : ℕ) (hph : s.phase = Phase.BELIEVE)
    (ha : a = ACTION_BELIEVE ∨ a = ACTION_DOUBT) :
    step s a = handle_believe s a := by
  have hv : is_action_valid_for_phase s a = true := by
    unfold is_action_valid_for_phase
    rw [hph]
    exact decide_eq_true ha
  unfold step
  rw [hv, hph]
  rfl

lemma step_of_valid_throw (s : EnvState) (a : ℕ) (hph : s.phase = Phase.THROW)
    (h2 : THROW_START ≤ a) (h66 : a < DECLARE_START) :
    step s a = (handle_throw s a, 0, false) := by
  have hv : is_action_valid_for_phase s a = true := by
    unfold is_action_valid_for_phase
    rw [hph]
    exact decide_eq_true ⟨h2, h66⟩
  unfold step
  rw [hv, hph]
  rfl

lemma step_of_valid_poker (s : EnvState) (a : ℕ) (hph : s.phase = Phase.POKER)
    (h2 : THROW_START ≤ a) (h66 : a < DECLARE_START) :
    step s a = handle_poker s a := by
  have hv : is_action_valid_for_phase s a = true := by
    unfold is_action_valid_for_phase
    rw [hph]
    exact decide_eq_true ⟨h2, h66⟩
  unfold step
  rw [hv, hph]
  rfl

lemma step_of_valid_declare (s : EnvState) (a : ℕ) (hph : s.phase = Phase.DECLARE)
    (hr : DECLARE_START ≤ a ∧
      (a ≤ MAX_NORMAL_DECLARE + DECLARE_START ∨ a = POKER_VALUE + DECLARE_START)) :
    step s a =
      (if (handle_declare s a).2 = false then ((handle_declare s a).1, PENALTY_INVALID, false)
       else ((handle_declare s a).1, 0, false)) := by
  have hv : is_action_valid_for_phase s a = true := by
    unfold is_action_valid_for_phase
    rw [hph]
    exact decide_eq_true hr
  unfold step
  rw [hv, hph]
  rfl

/-- C4: in DECLARE phase with a non-negative previous declaration, the step
succeeds exactly when the decoded value a - 66 is strictly above the
previous declaration and is a normal rank or the triple sentinel; on
success both declaration fields become that value, the player advances
cyclically, and the phase becomes BELIEVE. -/
theorem declare_accept_iff (s : EnvState) (a : ℕ)
    (hph : s.phase = Phase.DECLARE) (hprev : 0 ≤ s.prev_declared_value) :
    ((s.prev_declared_value < (a : ℤ) - (DECLARE_START : ℤ) ∧
        ((a : ℤ) - (DECLARE_START : ℤ) ≤ (MAX_NORMAL_DECLARE : ℤ) ∨
          (a : ℤ) - (DECLARE_START : ℤ) = (POKER_VALUE : ℤ))) →
      step s a =
        ({ s with
            declared_value := (a : ℤ) - (DECLARE_START : ℤ)
            prev_declared_value := (a : ℤ) - (DECLARE_START : ℤ)
            current_player := (s.current_player + 1) % s.num_players
            phase := Phase.BELIEVE }, (0 : ℚ), false)) ∧
    (¬(s.prev_declared_value < (a : ℤ) - (DECLARE_START : ℤ) ∧
        ((a : ℤ) - (DECLARE_START : ℤ) ≤ (MAX_NORMAL_DECLARE : ℤ) ∨
          (a : ℤ) - (DECLARE_START : ℤ) = (POKER_VALUE : ℤ))) →
      step s a = (s, PENALTY_INVALID, false)) ∧
    (step s a =
        ({ s with
            declared_value := (a : ℤ) - (DECLARE_START : ℤ)
            prev_declared_value := (a : ℤ) - (DECLARE_START : ℤ)
            current_player := (s.current_player + 1) % s.num_players
            phase := Phase.BELIEVE }, (0 : ℚ), false) ↔
      (s.prev_declared_value < (a : ℤ) - (DECLARE_START : ℤ) ∧
        ((a : ℤ) - (DECLARE_START : ℤ) ≤ (MAX_NORMAL_DECLARE : ℤ) ∨
          (a : ℤ) - (DECLARE_START : ℤ) = (POKER_VALUE : ℤ)))) := by
  have hacc : (s.prev_declared_value < (a : ℤ) - (DECLARE_START : ℤ) ∧
      ((a : ℤ) - (DECLARE_START : ℤ) ≤ (MAX_NORMAL_DECLARE : ℤ) ∨
        (a : ℤ) - (DECLARE_START : ℤ) = (POKER_VALUE : ℤ))) →
      step s a =
        ({ s with
            declared_value := (a : ℤ) - (DECLARE_START : ℤ)
            prev_declared_value := (a : ℤ) - (DECLARE_START : ℤ)
            current_player := (s.current_player + 1) % s.num_players
            phase := Phase.BELIEVE }, (0 : ℚ), false) := by
    intro hc
    have hr : DECLARE_START ≤ a ∧
        (a ≤ MAX_NORMAL_DECLARE + DECLARE_START ∨ a = POKER_VALUE + DECLARE_START) := by
      have hc2 := hc
      simp only [DECLARE_START, MAX_NORMAL_DECLARE, POKER_VALUE] at hc2 ⊢
      omega
    rw [step_of_valid_declare s a hph hr]
    have hd : handle_declare s a =
        ({ s with
            declared_value := (a : ℤ) - (DECLARE_START : ℤ)
            prev_declared_value := (a : ℤ) - (DECLARE_START : ℤ)
            current_player := (s.current_player + 1) % s.num_players
            phase := Phase.BELIEVE }, true) := by
      unfold handle_declare
      dsimp only
      rw [if_neg (by omega), if_neg (by omega)]
    rw [hd]
    rfl
  have hrej : ¬(s.prev_declared_value < (a : ℤ) - (DECLARE_START : ℤ) ∧
      ((a : ℤ) - (DECLARE_START : ℤ) ≤ (MAX_NORMAL_DECLARE : ℤ) ∨
        (a : ℤ) - (DECLARE_START : ℤ) = (POKER_VALUE : ℤ))) →
      step s a = (s, PENALTY_INVALID, false) := by
    intro hc
    apply step_reject_eq
    by_cases hval : s.prev_declared_value < (a : ℤ) - (DECLARE_START : ℤ)
    · refine Or.inr ⟨hph, Or.inr ?_⟩
      simp only [DECLARE_START, MAX_NORMAL_DECLARE, POKER_VALUE] at hc hval ⊢
      omega
    · exact Or.inr ⟨hph, Or.inl (by omega)⟩
  refine ⟨hacc, hrej, ⟨fun he => ?_, hacc⟩⟩
  by_contra hc
  have h2 := hrej hc
  rw [he] at h2
  have := congrArg (fun t => t.2.1) h2
  simp only at this
  exact absurd this (by unfold PENALTY_INVALID; norm_num)

/-- Witness for C4: from the initial DECLARE state, action 67 (declare 1)
is accepted with all the claimed effects. -/
theorem declare_accept_iff_witness :
    ((baseState.prev_declared_value < (67 : ℤ) - (DECLARE_START : ℤ) ∧
        ((67 : ℤ) - (DECLARE_START : ℤ) ≤ (MAX_NORMAL_DECLARE : ℤ) ∨
          (67 : ℤ) - (DECLARE_START : ℤ) = (POKER_VALUE : ℤ))) →
      step baseState 67 =
        ({ baseState with
            declared_value := (67 : ℤ) - (DECLARE_START : ℤ)
            prev_declared_value := (67 : ℤ) - (DECLARE_START : ℤ)
            current_player := (baseState.current_player + 1) % baseState.num_players
            phase := Phase.BELIEVE }, (0 : ℚ), false)) ∧
    (¬(baseState.prev_declared_value < (67 : ℤ) - (DECLARE_START : ℤ) ∧
        ((67 : ℤ) - (DECLARE_START : ℤ) ≤ (MAX_NORMAL_DECLARE : ℤ) ∨
          (67 : ℤ) - (DECLARE_START : ℤ) = (POKER_VALUE : ℤ))) →
      step baseState 67 = (baseState, PENALTY_INVALID, false)) ∧
    (step baseState 67 =
        ({ baseState with
            declared_value := (67 : ℤ) - (DECLARE_START : ℤ)
            prev_declared_value := (67 : ℤ) - (DECLARE_START : ℤ)
            current_player := (baseState.current_player + 1) % baseState.num_players
            phase := Phase.BELIEVE }, (0 : ℚ), false) ↔
      (baseState.prev_declared_value < (67 : ℤ) - (DECLARE_START : ℤ) ∧
        ((67 : ℤ) - (DECLARE_START : ℤ) ≤ (MAX_NORMAL_DECLARE : ℤ) ∨
          (67 : ℤ) - (DECLARE_START : ℤ) = (POKER_VALUE : ℤ)))) :=
  declare_accept_iff baseState 67 rfl (by decide)

/-- C5: in BELIEVE phase the Doubt action reveals every die, terminates the
round, and assigns the loser and reward by comparing the revealed rank with
the declared value: a lower rank convicts the previous player and pays the
doubter the positive catch-bluff reward, otherwise the doubter loses with
the negative lose-round penalty. -/
theorem doubt_resolution (s : EnvState) (hph : s.phase = Phase.BELIEVE) :
    (∀ i : Fin 3, (step s ACTION_DOUBT).1.cup_mask i = 0) ∧
    (step s ACTION_DOUBT).2.2 = true ∧
    ((calculateValue s.dice : ℤ) < s.declared_value →
      (step s ACTION_DOUBT).1.loser = prevPlayer s.num_players s.current_player ∧
      (step s ACTION_DOUBT).2.1 = REWARD_CATCH_BLUFF) ∧
    (s.declared_value ≤ (calculateValue s.dice : ℤ) →
      (step s ACTION_DOUBT).1.loser = s.current_player ∧
      (step s ACTION_DOUBT).2.1 = PENALTY_LOSE_ROUND) ∧
    (0 : ℚ) < REWARD_CATCH_BLUFF ∧ PENALTY_LOSE_ROUND < 0 := by
  rw [step_of_valid_believe s ACTION_DOUBT hph (Or.inr rfl)]
  unfold handle_believe
  rw [if_pos rfl]
  dsimp only
  by_cases hcmp : (calculateValue s.dice : ℤ) < s.declared_value
  · rw [if_pos hcmp]
    refine ⟨fun i => rfl, rfl, fun _ => ⟨rfl, rfl⟩, fun hle => absurd hcmp (by omega), ?_, ?_⟩
    · unfold REWARD_CATCH_BLUFF; norm_num
    · unfold PENALTY_LOSE_ROUND; norm_num
  · rw [if_neg hcmp]
    refine ⟨fun i => rfl, rfl, fun hlt => absurd hlt hcmp, fun _ => ⟨rfl, rfl⟩, ?_, ?_⟩
    · unfold REWARD_CATCH_BLUFF; norm_num
    · unfold PENALTY_LOSE_ROUND; norm_num

/-- Witness for C5 at a concrete BELIEVE state whose dice rank 532 is below
the declared value 600 (a caught bluff). -/
theorem doubt_resolution_witness :
    (∀ i : Fin 3, (step believeState ACTION_DOUBT).1.cup_mask i = 0) ∧
    (step believeState ACTION_DOUBT).2.2 = true ∧
    ((calculateValue believeState.dice : ℤ) < believeState.declared_value →
      (step believeState ACTION_DOUBT).1.loser =
        prevPlayer believeState.num_players believeState.current_player ∧
      (step believeState ACTION_DOUBT).2.1 = REWARD_CATCH_BLUFF) ∧
    (believeState.declared_value ≤ (calculateValue believeState.dice : ℤ) →
      (step believeState ACTION_DOUBT).1.loser = believeState.current_player ∧
      (step believeState ACTION_DOUBT).2.1 = PENALTY_LOSE_ROUND) ∧
    (0 : ℚ) < REWARD_CATCH_BLUFF ∧ PENALTY_LOSE_ROUND < 0 :=
  doubt_resolution believeState rfl

lemma throwDieActions_lt (rel : ℕ) (i : Fin 3) : throwDieActions rel i < 4 := by
  unfold throwDieActions
  split_ifs with hex
  · dsimp only
    split_ifs with h0
    · norm_num
    · exact Nat.mod_lt _ (by norm_num)
  · exact Nat.mod_lt _ (by norm_num)

lemma throwDieActions_ne_zero (rel : ℕ) (i j : Fin 3)
    (h : throwDieActions rel j = 2) : throwDieActions rel i ≠ 0 := by
  unfold throwDieActions at h ⊢
  by_cases hex : ∃ k : Fin 3, decodeDieActions rel k = 2
  · rw [if_pos hex]
    split_ifs with hraw
    · norm_num
    · exact hraw
  · rw [if_neg hex] at h
    exact absurd ⟨j, h⟩ hex

/-- C3 counterexample: in a reachable-shaped POKER state with one attempt
spent and all dice hidden, action 4 rerolls only die 0 (forced hidden)
while die 1 keeps its old value and stays hidden, so a Keep+Hide die
coexists with a Roll+Hide die after a POKER resolution. -/
theorem poker_keep_hide_counterexample :
    pokerState.phase = Phase.POKER ∧
    pokerRerollMask pokerState 4 0 = true ∧
    (step pokerState 4).1.cup_mask 0 = 1 ∧
    pokerRerollMask pokerState 4 1 = false ∧
    (step pokerState 4).1.cup_mask 1 = 1 ∧
    (step pokerState 4).1.dice 1 = pokerState.dice 1 := by decide

/-- C3 amended: after a THROW-phase resolution the cup correction holds:
any die left concealed while some (possibly the same) die was
rolled-and-concealed must itself have been rolled; the correction is not
applied in POKER resolutions, where rerolled dice are forced hidden but
kept dice retain their previous concealment. -/
theorem throw_cup_correction (s : EnvState) (a : ℕ) (i j : Fin 3)
    (hph : s.phase = Phase.THROW)
    (h2 : THROW_START ≤ a) (h66 : a < DECLARE_START)
    (hi : (step s a).1.cup_mask i = 1)
    (hj : throwRerollMask (a - THROW_START) j = true)
    (hcj : (step s a).1.cup_mask j = 1) :
    throwRerollMask (a - THROW_START) i = true := by
  rw [step_of_valid_throw s a hph h2 h66] at hi hcj
  have hi' : throwHideMask (a - THROW_START) i = 1 := hi
  have hcj' : throwHideMask (a - THROW_START) j = 1 := hcj
  have hj' : 2 ≤ throwDieActions (a - THROW_START) j := of_decide_eq_true hj
  have hjlt := throwDieActions_lt (a - THROW_START) j
  have hj2 : throwDieActions (a - THROW_START) j = 2 := by
    unfold throwHideMask at hcj'
    split_ifs at hcj' with hpar
    omega
  have hne := throwDieActions_ne_zero (a - THROW_START) i j hj2
  have hilt := throwDieActions_lt (a - THROW_START) i
  unfold throwHideMask at hi'
  split_ifs at hi' with hpar
  exact decide_eq_true (by omega)

/-- Witness for C3 amended: from the concrete THROW state, action 4 rolls
die 0 under the cup, and die 0 is indeed both rolled and concealed. -/
theorem throw_cup_correction_witness :
    throwRerollMask (4 - THROW_START) 0 = true :=
  throw_cup_correction throwState 4 0 0 rfl (by decide) (by decide) (by decide) (by decide)
    (by decide)

lemma dieFromDraw_bounds (r : ℕ) : 1 ≤ dieFromDraw r ∧ dieFromDraw r ≤ 6 := by
  unfold dieFromDraw
  have h6 : r % 6 < 6 := Nat.mod_lt _ (by norm_num)
  omega

lemma rollDice_keep (s : EnvState) (mask : Fin 3 → Bool) (i : Fin 3)
    (h : mask i = false) : (rollDice s mask).1 i = s.dice i := by
  fin_cases i
  · have hm : mask 0 = false := h
    simp [rollDice, hm]
  · have hm : mask 1 = false := h
    simp [rollDice, hm]
  · have hm : mask 2 = false := h
    simp [rollDice, hm]

lemma rollDice_fresh (s : EnvState) (mask : Fin 3 → Bool) (i : Fin 3)
    (h : mask i = true) :
    ∃ k, k ≤ 2 ∧ (rollDice s mask).1 i = dieFromDraw (s.rng (s.rngIdx + k)) := by
  fin_cases i
  · have hm : mask 0 = true := h
    exact ⟨0, by norm_num, by simp [rollDice, hm]⟩
  · have hm : mask 1 = true := h
    by_cases h0 : mask 0
    · exact ⟨1, by norm_num, by simp [rollDice, hm, h0]⟩
    · exact ⟨0, by norm_num, by simp [rollDice, hm, h0]⟩
  · have hm : mask 2 = true := h
    by_cases h0 : mask 0 <;> by_cases h1 : mask 1
    · exact ⟨2, by norm_num, by simp [rollDice, hm, h0, h1]⟩
    · exact ⟨1, by norm_num, by simp [rollDice, hm, h0, h1]⟩
    · exact ⟨1, by norm_num, by simp [rollDice, hm, h0, h1]⟩
    · exact ⟨0, by norm_num, by simp [rollDice, hm, h0, h1]⟩

lemma rollDice_bounds (s : EnvState) (mask : Fin 3 → Bool)
    (h : ∀ i : Fin 3, 1 ≤ s.dice i ∧ s.dice i ≤ 6) (i : Fin 3) :
    1 ≤ (rollDice s mask).1 i ∧ (rollDice s mask).1 i ≤ 6 := by
  by_cases hm : mask i
  · obtain ⟨k, _, hk⟩ := rollDice_fresh s mask i hm
    rw [hk]
    exact dieFromDraw_bounds _
  · rw [rollDice_keep s mask i (by simpa using hm)]
    exact h i

/-- C9: a POKER step whose reroll produces the triple sentinel terminates
the round with the small survive reward, records the successful roller in
the loser slot, and a subsequent reset makes that player start the next
round. -/
theorem poker_success_survives (s : EnvState) (a : ℕ)
    (hph : s.phase = Phase.POKER)
    (h2 : THROW_START ≤ a) (h66 : a < DECLARE_START)
    (hwin : calculateValue (step s a).1.dice = POKER_VALUE) :
    (step s a).2.1 = REWARD_SURVIVE ∧
    (step s a).2.2 = true ∧
    (step s a).1.loser = s.current_player ∧
    (reset (step s a).1).current_player = (step s a).1.loser ∧
    REWARD_SURVIVE = 5 / 100 ∧ (0 : ℚ) < REWARD_SURVIVE := by
  rw [step_of_valid_poker s a hph h2 h66] at hwin ⊢
  unfold handle_poker at hwin ⊢
  dsimp only at hwin ⊢
  rw [if_neg (fun hcon => hcon.2 ⟨h2, h66⟩)] at hwin ⊢
  split_ifs at hwin ⊢ with h1 h3
  · exact ⟨rfl, rfl, rfl, rfl, rfl, by unfold REWARD_SURVIVE; norm_num⟩
  · exact absurd hwin h1
  · exact absurd hwin h1

/-- Witness for C9: from the concrete POKER start state with the all-zero
stream, the first attempt rerolls all dice to ones (a triple). -/
theorem poker_success_survives_witness :
    (step pokerStartState 2).2.1 = REWARD_SURVIVE ∧
    (step pokerStartState 2).2.2 = true ∧
    (step pokerStartState 2).1.loser = pokerStartState.current_player ∧
    (reset (step pokerStartState 2).1).current_player = (step pokerStartState 2).1.loser ∧
    REWARD_SURVIVE = 5 / 100 ∧ (0 : ℚ) < REWARD_SURVIVE :=
  poker_success_survives pokerStartState 2 rfl (by decide) (by decide) (by decide)

/-- C6: semantics of a phase-valid POKER step: the attempt counter grows by
exactly one; the first attempt rerolls everything regardless of the mask;
later attempts reroll exactly the dice whose decoded digit requests a roll;
kept dice and their concealment are untouched; every rerolled die is forced
hidden and carries a fresh draw in [1, 6]; a third attempt without the
sentinel ends the round against the current player; and any attempt past
the second terminates the round. -/
theorem poker_attempt_semantics (s : EnvState) (a : ℕ)
    (hph : s.phase = Phase.POKER)
    (h2 : THROW_START ≤ a) (h66 : a < DECLARE_START) :
    (step s a).1.poker_attempts = s.poker_attempts + 1 ∧
    (s.poker_attempts = 0 → ∀ i : Fin 3, pokerRerollMask s a i = true) ∧
    (s.poker_attempts ≠ 0 → ∀ i : Fin 3,
      pokerRerollMask s a i = decide (2 ≤ decodeDieActions (a - THROW_START) i)) ∧
    (∀ i : Fin 3, pokerRerollMask s a i = false →
      (step s a).1.dice i = s.dice i ∧ (step s a).1.cup_mask i = s.cup_mask i) ∧
    (∀ i : Fin 3, pokerRerollMask s a i = true →
      (step s a).1.cup_mask i = 1 ∧
      ∃ k, k ≤ 2 ∧ (step s a).1.dice i = dieFromDraw (s.rng (s.rngIdx + k))) ∧
    (s.poker_attempts = 2 → calculateValue (step s a).1.dice ≠ POKER_VALUE →
      (step s a).2.1 = PENALTY_LOSE_ROUND ∧ (step s a).2.2 = true ∧
      (step s a).1.loser = s.current_player) ∧
    (2 ≤ s.poker_attempts → (step s a).2.2 = true) := by
  rw [step_of_valid_poker s a hph h2 h66]
  unfold handle_poker
  dsimp only
  rw [if_neg (fun hcon => hcon.2 ⟨h2, h66⟩)]
  refine ⟨?_, ?_, ?_, ?_, ?_, ?_, ?_⟩
  · split_ifs <;> rfl
  · intro h0 i
    unfold pokerRerollMask
    rw [if_pos (by omega)]
  · intro hne i
    unfold pokerRerollMask
    rw [if_neg (by omega)]
  · intro i hm
    constructor
    · split_ifs <;> exact rollDice_keep _ _ i hm
    · split_ifs <;> simp [hm]
  · intro i hm
    constructor
    · split_ifs <;> simp [hm]
    · split_ifs <;> exact rollDice_fresh _ _ i hm
  · intro h0 hwin
    split_ifs at hwin ⊢ with hw h3
    · exact absurd hw hwin
    · exact ⟨rfl, rfl, rfl⟩
    · exact absurd h3 (by omega)
  · intro hge
    split_ifs with hw h3
    · rfl
    · rfl
    · exact absurd h3 (by omega)

/-- Witness for C6 at the concrete POKER state with one attempt spent and
action 4 (reroll die 0 only). -/
theorem poker_attempt_semantics_witness :
    (step pokerState 4).1.poker_attempts = pokerState.poker_attempts + 1 ∧
    (pokerState.poker_attempts = 0 → ∀ i : Fin 3, pokerRerollMask pokerState 4 i = true) ∧
    (pokerState.poker_attempts ≠ 0 → ∀ i : Fin 3,
      pokerRerollMask pokerState 4 i = decide (2 ≤ decodeDieActions (4 - THROW_START) i)) ∧
    (∀ i : Fin 3, pokerRerollMask pokerState 4 i = false →
      (step pokerState 4).1.dice i = pokerState.dice i ∧
      (step pokerState 4).1.cup_mask i = pokerState.cup_mask i) ∧
    (∀ i : Fin 3, pokerRerollMask pokerState 4 i = true →
      (step pokerState 4).1.cup_mask i = 1 ∧
      ∃ k, k ≤ 2 ∧
        (step pokerState 4).1.dice i = dieFromDraw (pokerState.rng (pokerState.rngIdx + k))) ∧
    (pokerState.poker_attempts = 2 → calculateValue (step pokerState 4).1.dice ≠ POKER_VALUE →
      (step pokerState 4).2.1 = PENALTY_LOSE_ROUND ∧ (step pokerState 4).2.2 = true ∧
      (step pokerState 4).1.loser = pokerState.current_player) ∧
    (2 ≤ pokerState.poker_attempts → (step pokerState 4).2.2 = true) :=
  poker_attempt_semantics pokerState 4 rfl (by decide) (by decide)

lemma reset_dice_bounds (s : EnvState) (i : Fin 3) :
    1 ≤ (reset s).dice i ∧ (reset s).dice i ≤ 6 := by
  unfold reset
  dsimp only
  obtain ⟨k, _, hk⟩ := rollDice_fresh { s with current_player := s.loser } (fun _ => true) i rfl
  rw [hk]
  exact dieFromDraw_bounds _

lemma step_dice_bounds (s : EnvState) (a : ℕ)
    (h : ∀ i : Fin 3, 1 ≤ s.dice i ∧ s.dice i ≤ 6) :
    ∀ i : Fin 3, 1 ≤ (step s a).1.dice i ∧ (step s a).1.dice i ≤ 6 := by
  intro i
  unfold step
  split_ifs with hv
  · exact h i
  · cases hph : s.phase with
    | DECLARE =>
      dsimp only
      unfold handle_declare
      dsimp only
      split_ifs <;> exact h i
    | BELIEVE =>
      dsimp only
      unfold handle_believe
      dsimp only
      split_ifs <;> exact h i
    | THROW =>
      dsimp only
      unfold handle_throw
      dsimp only
      exact rollDice_bounds _ _ h i
    | POKER =>
      dsimp only
      unfold handle_poker
      dsimp only
      split_ifs
      · exact h i
      · exact rollDice_bounds _ _ h i
      · exact rollDice_bounds _ _ h i
      · exact rollDice_bounds _ _ h i

lemma reachable_dice_bounds (s : EnvState) (h : Reachable s) :
    ∀ i : Fin 3, 1 ≤ s.dice i ∧ s.dice i ≤ 6 := by
  induction h with
  | init np g h3 h8 => exact fun i => reset_dice_bounds _ i
  | ofStep s a h ih => exact step_dice_bounds s a ih
  | ofReset s h ih => exact fun i => reset_dice_bounds _ i
  | ofReseed s g h ih => exact fun i => reset_dice_bounds _ i

/-- C8: on every reachable state the observation masks a die to the
sentinel 0 exactly when the phase is BELIEVE and that die is under the cup;
in every other case the true value is exposed, and the cup mask itself is
always disclosed unchanged. -/
theorem obs_masking (s : EnvState) (h : Reachable s) :
    (∀ i : Fin 3, (get_obs s).dice i =
      if s.phase = Phase.BELIEVE ∧ s.cup_mask i = 1 then 0 else s.dice i) ∧
    (∀ i : Fin 3, (get_obs s).cup_mask i = s.cup_mask i) ∧
    (∀ i : Fin 3, ((get_obs s).dice i = 0 ↔ (s.phase = Phase.BELIEVE ∧ s.cup_mask i = 1))) := by
  have hb := reachable_dice_bounds s h
  have hobs : ∀ i : Fin 3, (get_obs s).dice i =
      if s.phase = Phase.BELIEVE ∧ s.cup_mask i = 1 then 0 else s.dice i := by
    intro i
    unfold get_obs
    dsimp only
    by_cases hph : s.phase = Phase.BELIEVE
    · rw [if_pos hph]
      by_cases hc : s.cup_mask i = 1
      · rw [if_pos hc, if_pos ⟨hph, hc⟩]
      · rw [if_neg hc, if_neg (fun hand => hc hand.2)]
    · rw [if_neg hph, if_neg (fun hand => hph hand.1)]
  refine ⟨hobs, fun i => rfl, fun i => ?_⟩
  rw [hobs i]
  split_ifs with hcond
  · simp [hcond]
  · have := hb i
    exact ⟨fun h0 => absurd h0 (by omega), fun hc0 => absurd hc0 hcond⟩

/-- Witness for C8 at the freshly constructed three-player state. -/
theorem obs_masking_witness :
    (∀ i : Fin 3, (get_obs (initState 3 gZero)).dice i =
      if (initState 3 gZero).phase = Phase.BELIEVE ∧ (initState 3 gZero).cup_mask i = 1 then 0
      else (initState 3 gZero).dice i) ∧
    (∀ i : Fin 3, (get_obs (initState 3 gZero)).cup_mask i = (initState 3 gZero).cup_mask i) ∧
    (∀ i : Fin 3, ((get_obs (initState 3 gZero)).dice i = 0 ↔
      ((initState 3 gZero).phase = Phase.BELIEVE ∧ (initState 3 gZero).cup_mask i = 1))) :=
  obs_masking (initState 3 gZero) (Reachable.init 3 gZero (by norm_num) (by norm_num))

lemma step_preserves_decl (s : EnvState) (a : ℕ)
    (h : s.declared_value = s.prev_declared_value) :
    (step s a).1.declared_value = (step s a).1.prev_declared_value := by
  unfold step
  split_ifs with hv
  · exact h
  · cases hph : s.phase with
    | DECLARE =>
      dsimp only
      unfold handle_declare
      dsimp only
      split_ifs <;> first | exact h | rfl
    | BELIEVE =>
      dsimp only
      unfold handle_believe
      dsimp only
      split_ifs <;> exact h
    | THROW =>
      exact h
    | POKER =>
      dsimp only
      unfold handle_poker
      dsimp only
      split_ifs <;> exact h

/-- C10: in every reachable state the two declaration fields coincide:
reset zeroes both together, an accepted declaration writes both together,
and nothing else writes them. -/
theorem declared_eq_prev_invariant (s : EnvState) (h : Reachable s) :
    s.declared_value = s.prev_declared_value := by
  induction h with
  | init np g h3 h8 => rfl
  | ofStep s a h ih => exact step_preserves_decl s a ih
  | ofReset s h ih => rfl
  | ofReseed s g h ih => rfl

/-- Witness for C10 at the freshly constructed three-player state. -/
theorem declared_eq_prev_invariant_witness :
    (initState 3 gZero).declared_value = (initState 3 gZero).prev_declared_value :=
  declared_eq_prev_invariant (initState 3 gZero)
    (Reachable.init 3 gZero (by norm_num) (by norm_num))

end BlufPoker
